import Mathlib

/-!
Verification development for the DailyMacroTracker nutrition application.

The client code (App.tsx, utils/validation.ts, utils/api.ts, contexts/AuthContext.tsx)
is shallowly embedded below.  JavaScript numbers are modelled by `JSNum`:
NaN, the two infinities, or a finite value represented as an exact rational
(IEEE-754 rounding is abstracted away; none of the verified properties sits on a
rounding boundary).  Strings that are only compared or stored are `String`;
strings that are trimmed / escaped character by character are `List Char`.
Numeric form fields, which the validators observe only through
`raw.trim() === ''` and `parseFloat(raw)`, are modelled by `NumInput`.
-/

namespace NutritionTracker

/-- JavaScript number semantics: NaN, positive/negative infinity, or a finite
value modelled as an exact rational. -/
inductive JSNum where
  | nan
  | posInf
  | negInf
  | fin (q : ℚ)
deriving DecidableEq, Repr

namespace JSNum

/-- The JS `isNaN` test (on numbers, identical to `Number.isNaN`). -/
def jIsNaN : JSNum → Bool
  | nan => true
  | _ => false

/-- The JS `isFinite` test (`Number.isFinite` on numbers). -/
def jFinite : JSNum → Bool
  | fin _ => true
  | _ => false

/-- Whether a number is falsy in JS (`NaN` and `0`; `-0` is identified with `0`). -/
def jFalsy : JSNum → Bool
  | nan => true
  | fin q => q = 0
  | _ => false

/-- JS `<` comparison: any comparison involving NaN is false. -/
def jlt : JSNum → JSNum → Bool
  | nan, _ => false
  | _, nan => false
  | negInf, negInf => false
  | negInf, _ => true
  | _, negInf => false
  | posInf, _ => false
  | fin _, posInf => true
  | fin a, fin b => decide (a < b)

/-- JS `<=` comparison: false when either side is NaN, otherwise `¬ (b < a)`. -/
def jle : JSNum → JSNum → Bool
  | nan, _ => false
  | _, nan => false
  | a, b => !(jlt b a)

/-- JS addition on the extended number line (`∞ + -∞ = NaN`). -/
def jadd : JSNum → JSNum → JSNum
  | nan, _ => nan
  | _, nan => nan
  | posInf, negInf => nan
  | negInf, posInf => nan
  | posInf, _ => posInf
  | _, posInf => posInf
  | negInf, _ => negInf
  | _, negInf => negInf
  | fin a, fin b => fin (a + b)

/-- JS negation. -/
def jneg : JSNum → JSNum
  | nan => nan
  | posInf => negInf
  | negInf => posInf
  | fin a => fin (-a)

/-- JS subtraction. -/
def jsub (a b : JSNum) : JSNum := jadd a (jneg b)

/-- JS multiplication (`∞ * 0 = NaN`; signed zero is identified with zero). -/
def jmul : JSNum → JSNum → JSNum
  | nan, _ => nan
  | _, nan => nan
  | posInf, posInf => posInf
  | posInf, negInf => negInf
  | negInf, posInf => negInf
  | negInf, negInf => posInf
  | posInf, fin b => if b = 0 then nan else if 0 < b then posInf else negInf
  | fin a, posInf => if a = 0 then nan else if 0 < a then posInf else negInf
  | negInf, fin b => if b = 0 then nan else if 0 < b then negInf else posInf
  | fin a, negInf => if a = 0 then nan else if 0 < a then negInf else posInf
  | fin a, fin b => fin (a * b)

/-- JS division (`∞ / ∞ = NaN`, `x / 0 = ±∞` for `x ≠ 0`, `0 / 0 = NaN`;
signed zero is identified with zero). -/
def jdiv : JSNum → JSNum → JSNum
  | nan, _ => nan
  | _, nan => nan
  | posInf, posInf => nan
  | posInf, negInf => nan
  | negInf, posInf => nan
  | negInf, negInf => nan
  | posInf, fin b => if 0 ≤ b then posInf else negInf
  | negInf, fin b => if 0 ≤ b then negInf else posInf
  | fin _, posInf => fin 0
  | fin _, negInf => fin 0
  | fin a, fin b =>
      if b = 0 then (if a = 0 then nan else if 0 < a then posInf else negInf)
      else fin (a / b)

/-- JS `Math.abs`. -/
def jabs : JSNum → JSNum
  | nan => nan
  | posInf => posInf
  | negInf => posInf
  | fin a => fin |a|

end JSNum

open JSNum

/-- A daily log entry (interface `DailyEntry` in App.tsx).  Numeric fields are
JS numbers; the name is kept as raw characters because it flows through
`sanitizeString`. -/
structure DailyEntry where
  id : ℤ
  foodId : ℤ
  name : List Char
  servings : JSNum
  portionSize : JSNum
  unit : String
  calories : JSNum
  protein : JSNum
  carbs : JSNum
  fat : JSNum
  date : String
  mealTime : String
deriving DecidableEq, Repr

/-- `cleanupNaNEntries` from App.tsx: keep an entry unless one of the four
macro fields is NaN (the source logs and returns `false` for those). -/
def cleanupNaNEntries (entries : List DailyEntry) : List DailyEntry :=
  entries.filter (fun entry =>
    if jIsNaN entry.calories || jIsNaN entry.protein || jIsNaN entry.carbs || jIsNaN entry.fat
    then false else true)

/-- `countCorruptedEntries` from App.tsx (the source reads the `dailyEntries`
state; it is passed explicitly here). -/
def countCorruptedEntries (entries : List DailyEntry) : ℕ :=
  (entries.filter (fun entry =>
    jIsNaN entry.calories || jIsNaN entry.protein || jIsNaN entry.carbs || jIsNaN entry.fat)).length

/-- Four-field totals record produced by the daily-totals reduction. -/
structure Totals where
  calories : JSNum
  protein : JSNum
  carbs : JSNum
  fat : JSNum
deriving DecidableEq, Repr

/-- `dailyTotals` from App.tsx: filter the entries of the selected date and
reduce, replacing any NaN field by 0 before adding. -/
def dailyTotals (entries : List DailyEntry) (selectedDate : String) : Totals :=
  (entries.filter (fun entry => entry.date == selectedDate)).foldl
    (fun totals entry =>
      let safeCalories := if jIsNaN entry.calories then JSNum.fin 0 else entry.calories
      let safeProtein := if jIsNaN entry.protein then JSNum.fin 0 else entry.protein
      let safeCarbs := if jIsNaN entry.carbs then JSNum.fin 0 else entry.carbs
      let safeFat := if jIsNaN entry.fat then JSNum.fin 0 else entry.fat
      { calories := jadd totals.calories safeCalories
        protein := jadd totals.protein safeProtein
        carbs := jadd totals.carbs safeCarbs
        fat := jadd totals.fat safeFat })
    { calories := JSNum.fin 0, protein := JSNum.fin 0, carbs := JSNum.fin 0, fat := JSNum.fin 0 }

/-- Spec-side predicate (§4.2 of the spec): an entry is corrupted iff some
macro field is non-finite.  Written from the spec text for comparison with the
code, which tests NaN only. -/
def specCorruptedNonFinite (e : DailyEntry) : Bool :=
  !(jFinite e.calories && jFinite e.protein && jFinite e.carbs && jFinite e.fat)

/-- Spec-side predicate matching what the code actually tests: some macro
field is NaN. -/
def hasNaNMacro (e : DailyEntry) : Prop :=
  jIsNaN e.calories = true ∨ jIsNaN e.protein = true ∨ jIsNaN e.carbs = true ∨ jIsNaN e.fat = true

instance (e : DailyEntry) : Decidable (hasNaNMacro e) := by
  unfold hasNaNMacro; infer_instance

/-- Sum of a list of JS numbers. -/
def jsum (l : List JSNum) : JSNum := l.foldl jadd (JSNum.fin 0)

/-- A value with NaN replaced by 0 (what the daily-totals reduction applies
per field). -/
def zeroIfNaN (v : JSNum) : JSNum := if jIsNaN v then JSNum.fin 0 else v

/-- A value with any non-finite replaced by 0 (the spec wording of
`safeAggregate`: any corrupted = non-finite field is treated as zero). -/
def zeroIfNonFinite (v : JSNum) : JSNum := if jFinite v then v else JSNum.fin 0

/-- Aggregation written directly from the spec text of `safeAggregate`:
per-field sums with non-finite fields treated as zero. -/
def safeAggregateSpec (entries : List DailyEntry) : Totals :=
  { calories := jsum (entries.map (fun e => zeroIfNonFinite e.calories))
    protein := jsum (entries.map (fun e => zeroIfNonFinite e.protein))
    carbs := jsum (entries.map (fun e => zeroIfNonFinite e.carbs))
    fat := jsum (entries.map (fun e => zeroIfNonFinite e.fat)) }

/-- Aggregation with per-field NaN-to-zero, the amended reading matching the
code: any NaN field is treated as zero for that field only. -/
def safeAggregateNaN (entries : List DailyEntry) : Totals :=
  { calories := jsum (entries.map (fun e => zeroIfNaN e.calories))
    protein := jsum (entries.map (fun e => zeroIfNaN e.protein))
    carbs := jsum (entries.map (fun e => zeroIfNaN e.carbs))
    fat := jsum (entries.map (fun e => zeroIfNaN e.fat)) }

/-!
Validation Engine (utils/validation.ts).

A numeric form field is observed by the validators only through
`raw.trim() === ''` and `parseFloat(raw)`, so it is modelled by `NumInput`:
either the string trims to empty (then `parseFloat` yields NaN), or it is
non-blank and `parseFloat` yields some JS number (NaN when unparsable,
`±Infinity` for infinite literals, otherwise finite).
-/

/-- A raw numeric form field as the validators observe it. -/
inductive NumInput where
  | blank
  | value (v : JSNum)
deriving DecidableEq, Repr

/-- Whether the raw string trims to empty (`!raw.trim()`). -/
def numInputBlank : NumInput → Bool
  | NumInput.blank => true
  | NumInput.value _ => false

/-- The `parseFloat` result of the raw string (NaN for a blank string). -/
def parseNum : NumInput → JSNum
  | NumInput.blank => JSNum.nan
  | NumInput.value v => v

/-- Result type returned by every validator (`ValidationResult`). -/
structure ValidationResult where
  isValid : Bool
  errors : List String
deriving DecidableEq, Repr

/-- Input shape of `validateFood` (`FoodData`): a name string and four raw
numeric fields. -/
structure FoodData where
  name : List Char
  calories : NumInput
  protein : NumInput
  carbs : NumInput
  fat : NumInput
deriving DecidableEq, Repr

/-- JS whitespace recognised by `String.prototype.trim` (ASCII part; the
Unicode space characters are omitted, no claim depends on them). -/
def isWS (c : Char) : Bool :=
  c = ' ' || c = Char.ofNat 9 || c = Char.ofNat 10 || c = Char.ofNat 13 ||
  c = Char.ofNat 11 || c = Char.ofNat 12

/-- `String.prototype.trim`: drop whitespace from both ends. -/
def trimChars (s : List Char) : List Char :=
  (((s.dropWhile isWS).reverse.dropWhile isWS)).reverse

/-- Name checks of `validateFood`: required, trimmed length in [2, 100]. -/
def nameErrors (name : List Char) : List String :=
  if (trimChars name).isEmpty then ["Food name is required"]
  else if (trimChars name).length < 2 then ["Food name must be at least 2 characters"]
  else if (trimChars name).length > 100 then ["Food name must be less than 100 characters"]
  else []

/-- The common shape of the four macro-field blocks of `validateFood`:
required / valid number / non-negative / below the field maximum, with the
per-field messages and maximum passed in. -/
def numFieldErrors (x : NumInput) (reqMsg nanMsg negMsg maxMsg : String) (maxVal : ℚ) : List String :=
  let v := parseNum x
  if numInputBlank x then [reqMsg]
  else if jIsNaN v then [nanMsg]
  else if jlt v (JSNum.fin 0) then [negMsg]
  else if jlt (JSNum.fin maxVal) v then [maxMsg]
  else []

/-- The cross-check error message of `validateFood` (apostrophe written as an
escape). -/
def crossCheckMsg : String :=
  "Nutritional values don't match expected calorie calculation (check your values)"

/-- Cross-validation block of `validateFood`: when all four fields parse to
non-NaN numbers, compare calories with `protein*4 + carbs*4 + fat*9` under a
20% tolerance; the check only fires when `calories > 50`. -/
def crossErrors (f : FoodData) : List String :=
  let protein := parseNum f.protein
  let carbs := parseNum f.carbs
  let fat := parseNum f.fat
  let calories := parseNum f.calories
  if !jIsNaN protein && !jIsNaN carbs && !jIsNaN fat && !jIsNaN calories then
    let calculatedCalories := jadd (jadd (jmul protein (JSNum.fin 4)) (jmul carbs (JSNum.fin 4))) (jmul fat (JSNum.fin 9))
    let difference := jabs (jsub calories calculatedCalories)
    let tolerance := jmul calories (JSNum.fin (1 / 5))
    if jlt tolerance difference && jlt (JSNum.fin 50) calories then [crossCheckMsg] else []
  else []

/-- `validateFood`: accumulates the errors of every block in source order and
reports validity as emptiness of the list. -/
def validateFood (f : FoodData) : ValidationResult :=
  let errors :=
    nameErrors f.name ++
    numFieldErrors f.calories "Calories value is required" "Calories must be a valid number"
      "Calories cannot be negative" "Calories per 100g seems too high (max 9000)" 9000 ++
    numFieldErrors f.protein "Protein value is required" "Protein must be a valid number"
      "Protein cannot be negative" "Protein per 100g cannot exceed 100g" 100 ++
    numFieldErrors f.carbs "Carbs value is required" "Carbs must be a valid number"
      "Carbs cannot be negative" "Carbs per 100g cannot exceed 100g" 100 ++
    numFieldErrors f.fat "Fat value is required" "Fat must be a valid number"
      "Fat cannot be negative" "Fat per 100g cannot exceed 100g" 100 ++
    crossErrors f
  { isValid := errors.length == 0, errors := errors }

/-- `validatePortionSize`: required, a valid number, strictly positive, at
most 10000. -/
def validatePortionSize (portionSize : NumInput) : ValidationResult :=
  let portion := parseNum portionSize
  let errors :=
    if numInputBlank portionSize then ["Portion size is required"]
    else if jIsNaN portion then ["Portion size must be a valid number"]
    else if jle portion (JSNum.fin 0) then ["Portion size must be greater than 0"]
    else if jlt (JSNum.fin 10000) portion then ["Portion size seems too large (max 10,000g)"]
    else []
  { isValid := errors.length == 0, errors := errors }

/-- The apostrophe character. -/
def apos : Char := Char.ofNat 39

/-- Per-character escaping of `sanitizeString`: the five characters of the
regex class are replaced by their HTML entities, everything else is kept. -/
def escapeChar (c : Char) : List Char :=
  if c = '<' then ['&', 'l', 't', ';']
  else if c = '>' then ['&', 'g', 't', ';']
  else if c = '"' then ['&', 'q', 'u', 'o', 't', ';']
  else if c = apos then ['&', '#', 'x', '2', '7', ';']
  else if c = '&' then ['&', 'a', 'm', 'p', ';']
  else [c]

/-- Whether a character is one of the five characters escaped by
`sanitizeString`. -/
def isSpecialChar (c : Char) : Bool :=
  c = '<' || c = '>' || c = '"' || c = apos || c = '&'

/-- `sanitizeString`: trim, then replace every occurrence of the five special
characters by its escape sequence (a single left-to-right pass, as JS
`String.prototype.replace` with a global regex performs). -/
def sanitizeString (input : List Char) : List Char :=
  (trimChars input).flatMap escapeChar

/-!
Reconciliation Controller (App.tsx component state and mutation handlers).

The component state that the modelled handlers read or write is collected in
`AppState`.  Network calls are modelled by explicit outcome parameters
(`pushOk`, `fetchOk`, `fetched`) and an event trace (`Ev`) recording the
wire traffic and the user-facing error surfaces (`alert`, `console.error`).
`console.log` diagnostics are not modelled.
-/

/-- A food item (interface `Food`).  `servingParsed` is the one observation
the code makes of the raw `serving` string:
`parseFloat(food.serving.replace(/[^\d.]/g, ''))`. -/
structure Food where
  id : ℤ
  name : List Char
  calories : JSNum
  protein : JSNum
  carbs : JSNum
  fat : JSNum
  servingParsed : JSNum
  unit : Option String
  isCustom : Bool
deriving DecidableEq, Repr

/-- The singleton goals record. -/
structure Goals where
  calories : JSNum
  protein : JSNum
  carbs : JSNum
  fat : JSNum
deriving DecidableEq, Repr

/-- The `newFood` form state (raw strings of the add/edit-food form). -/
structure NewFoodForm where
  name : List Char
  calories : NumInput
  protein : NumInput
  carbs : NumInput
  fat : NumInput
  serving : NumInput
  unit : String
deriving DecidableEq, Repr

/-- The reset value of the `newFood` form
(`{ name: '', calories: '', ..., serving: '100', unit: 'g' }`). -/
def emptyNewFoodForm : NewFoodForm :=
  { name := [], calories := NumInput.blank, protein := NumInput.blank
    carbs := NumInput.blank, fat := NumInput.blank
    serving := NumInput.value (JSNum.fin 100), unit := "g" }

/-- The component state of `MacroTracker` that the modelled handlers touch. -/
structure AppState where
  customFoods : List Food
  dailyEntries : List DailyEntry
  goals : Goals
  isAuthenticated : Bool
  isDeletingEntry : Bool
  isManualSaving : Bool
  portionSize : NumInput
  selectedDate : String
  editingFood : Option Food
  newFood : NewFoodForm
  foodValidationErrors : List String
  portionValidationErrors : List String
  showPortionModal : Bool
  showAddFoodForm : Bool
  selectedFood : Option Food
deriving DecidableEq, Repr

/-- Payload of a successful `GET /api/user/data` (absent fields already
defaulted, as the `|| []` / `|| {...}` in the loader do). -/
structure UserData where
  customFoods : List Food
  dailyEntries : List DailyEntry
  goals : Goals
deriving DecidableEq, Repr

/-- Observable events of a mutation: wire traffic and error surfaces. -/
inductive Ev where
  | push (entries : List DailyEntry)
  | fetch
  | alertMsg (m : String)
  | logError (m : String)
deriving DecidableEq, Repr

/-- Whether an event is a network call. -/
def Ev.isNetwork : Ev → Bool
  | Ev.push _ => true
  | Ev.fetch => true
  | _ => false

/-- Whether an event is a user-facing or console error signal. -/
def Ev.isErrorSignal : Ev → Bool
  | Ev.alertMsg _ => true
  | Ev.logError _ => true
  | _ => false

/-- Shape of an `ApiResponse` as far as the controller could observe it. -/
structure ApiResp where
  success : Bool
deriving DecidableEq, Repr

/-- `api.saveUserData`: `ApiClient.request` catches every transport or server
failure and RESOLVES with `{ success: false, error }`; it never rejects. -/
def apiSaveUserData (pushOk : Bool) : ApiResp := { success := pushOk }

/-- `saveUserDataToBackend` from App.tsx: builds the payload (an override
replaces the corresponding collection) and awaits `api.saveUserData`.  The
response is discarded without inspecting `success`, and since the api call
never rejects, the surrounding `catch { throw error }` can never fire for a
push failure: the function always returns normally.  The returned event
records the push attempt (with the `dailyEntries` field of the payload). -/
def saveUserDataToBackend (s : AppState) (overrideEntries : Option (List DailyEntry))
    (pushOk : Bool) : Except String (List Ev) :=
  let payloadEntries := overrideEntries.getD s.dailyEntries
  let _resp := apiSaveUserData pushOk
  Except.ok [Ev.push payloadEntries]

/-- `api.getUserData` as observed by the loader: `some` payload on success,
`none` when the request resolved with `success: false`. -/
def apiGetUserData (fetchOk : Bool) (fetched : UserData) : Option UserData :=
  if fetchOk then some fetched else none

/-- `loadUserDataFromBackend` from App.tsx: on success replace the three
collections wholesale, cleaning NaN entries first (the deferred re-save that
fires when the cleanup shrank the list is a `setTimeout` outside the awaited
mutation and is not modelled); on failure nothing is applied.  A fetch event
is recorded either way. -/
def loadUserDataFromBackend (s : AppState) (fetchOk : Bool) (fetched : UserData) :
    AppState × List Ev :=
  match apiGetUserData fetchOk fetched with
  | some d =>
      ({ s with customFoods := d.customFoods
                dailyEntries := cleanupNaNEntries d.dailyEntries
                goals := d.goals }, [Ev.fetch])
  | none => (s, [Ev.fetch])

/-- Body of `addFoodEntry` after the portion size has been resolved.  The
`typeof food.calories !== 'number'` guards of the source are vacuous here
because every field of `Food` is a number by construction; the NaN guards are
kept. -/
def addFoodEntryWith (s : AppState) (food : Food) (actualPortionSize : JSNum)
    (now : ℤ) (mealTime : String) (pushOk fetchOk : Bool) (fetched : UserData) :
    AppState × List Ev :=
  if jIsNaN food.calories || jIsNaN food.protein || jIsNaN food.carbs || jIsNaN food.fat then
    (s, [Ev.logError "Food contains NaN values"])
  else
    let basePortionSize := if jFalsy food.servingParsed then JSNum.fin 100 else food.servingParsed
    let multiplier := jdiv actualPortionSize basePortionSize
    if jIsNaN multiplier || jle multiplier (JSNum.fin 0) then
      (s, [Ev.logError "Invalid multiplier calculated"])
    else
      let calculatedCalories := jmul food.calories multiplier
      let calculatedProtein := jmul food.protein multiplier
      let calculatedCarbs := jmul food.carbs multiplier
      let calculatedFat := jmul food.fat multiplier
      if jIsNaN calculatedCalories || jIsNaN calculatedProtein ||
          jIsNaN calculatedCarbs || jIsNaN calculatedFat then
        (s, [Ev.logError "Calculated values contain NaN"])
      else
        let entry : DailyEntry :=
          { id := now, foodId := food.id, name := food.name
            servings := JSNum.fin 1, portionSize := actualPortionSize
            unit := food.unit.getD "g"
            calories := calculatedCalories, protein := calculatedProtein
            carbs := calculatedCarbs, fat := calculatedFat
            date := s.selectedDate, mealTime := mealTime }
        let originalEntries := s.dailyEntries
        let updatedEntries := s.dailyEntries ++ [entry]
        let s1 := { s with dailyEntries := updatedEntries,
                           showPortionModal := false,
                           selectedFood := none,
                           portionSize := NumInput.value (JSNum.fin 100) }
        if s1.isAuthenticated then
          let s2 := { s1 with isManualSaving := true }
          match saveUserDataToBackend s2 (some updatedEntries) pushOk with
          | Except.error _ =>
              -- catch branch of the source: revert the optimistic update.
              -- Unreachable: `saveUserDataToBackend` never returns an error.
              ({ s2 with dailyEntries := originalEntries, isManualSaving := false },
               [Ev.logError "Failed to save entry to backend"])
          | Except.ok evs =>
              let lr := loadUserDataFromBackend s2 fetchOk fetched
              ({ lr.1 with isManualSaving := false }, evs ++ lr.2)
        else (s1, [])

/-- `addFoodEntry` from App.tsx.  With `customPortionSize` absent, the modal
portion string is validated and parsed first (no state change and no traffic
on a validation failure). -/
def addFoodEntry (s : AppState) (food : Food) (customPortionSize : Option JSNum)
    (now : ℤ) (mealTime : String) (pushOk fetchOk : Bool) (fetched : UserData) :
    AppState × List Ev :=
  match customPortionSize with
  | some v => addFoodEntryWith s food v now mealTime pushOk fetchOk fetched
  | none =>
      let validation := validatePortionSize s.portionSize
      if !validation.isValid then
        ({ s with portionValidationErrors := validation.errors }, [])
      else
        let s0 := { s with portionValidationErrors := [] }
        let actualPortionSize := parseNum s0.portionSize
        if jIsNaN actualPortionSize || jle actualPortionSize (JSNum.fin 0) then
          ({ s0 with portionValidationErrors := ["Invalid portion size"] }, [])
        else addFoodEntryWith s0 food actualPortionSize now mealTime pushOk fetchOk fetched

/-- `removeFoodEntry` from App.tsx.  When the id is absent from the local
list the handler alerts and returns before touching `dailyEntries`; otherwise
the entry is removed optimistically and, when authenticated, a full push plus
re-fetch follows.  The `finally` block clears `isDeletingEntry` on every
path.  As in `addFoodEntry`, the rollback branch is unreachable because the
save helper never throws. -/
def removeFoodEntry (s : AppState) (entryId : ℤ) (pushOk fetchOk : Bool)
    (fetched : UserData) : AppState × List Ev :=
  let originalEntries := s.dailyEntries
  let s1 := { s with isDeletingEntry := true }
  match s1.dailyEntries.find? (fun entry => entry.id == entryId) with
  | none =>
      ({ s1 with isDeletingEntry := false },
       [Ev.logError "Entry not found in local state",
        Ev.alertMsg "Entry not found. Please refresh the page and try again."])
  | some _ =>
      let updatedEntries := s1.dailyEntries.filter (fun entry => !(entry.id == entryId))
      let s2 := { s1 with dailyEntries := updatedEntries }
      if s2.isAuthenticated then
        let s3 := { s2 with isManualSaving := true }
        match saveUserDataToBackend s3 (some updatedEntries) pushOk with
        | Except.error _ =>
            -- catch branch of the source: revert the deletion and alert.
            -- Unreachable: `saveUserDataToBackend` never returns an error.
            ({ s3 with dailyEntries := originalEntries,
                       isManualSaving := false, isDeletingEntry := false },
             [Ev.alertMsg "Failed to delete entry. Please try again."])
        | Except.ok evs =>
            let lr := loadUserDataFromBackend s3 fetchOk fetched
            ({ lr.1 with isManualSaving := false, isDeletingEntry := false }, evs ++ lr.2)
      else ({ s2 with isDeletingEntry := false }, [])

/-- `deleteCustomFood` from App.tsx: drop the food with the given id from the
custom-foods collection. -/
def deleteCustomFood (s : AppState) (foodId : ℤ) : AppState :=
  { s with customFoods := s.customFoods.filter (fun food => !(food.id == foodId)) }

/-- `updateCustomFood` from App.tsx: with a food being edited and the form
passing `validateFood`, replace that food in the custom-foods collection and
reset the form; otherwise only the validation-error state changes. -/
def updateCustomFood (s : AppState) : AppState :=
  match s.editingFood with
  | none => s
  | some editingFood =>
      let foodData : FoodData :=
        { name := sanitizeString s.newFood.name
          calories := s.newFood.calories, protein := s.newFood.protein
          carbs := s.newFood.carbs, fat := s.newFood.fat }
      let validation := validateFood foodData
      if !validation.isValid then
        { s with foodValidationErrors := validation.errors }
      else
        let updatedFood : Food :=
          { editingFood with
              name := sanitizeString s.newFood.name
              calories := parseNum s.newFood.calories
              protein := parseNum s.newFood.protein
              carbs := parseNum s.newFood.carbs
              fat := parseNum s.newFood.fat
              servingParsed := JSNum.fin 100
              unit := some s.newFood.unit }
        { s with foodValidationErrors := [],
                 customFoods := s.customFoods.map (fun food =>
                   if food.id == editingFood.id then updatedFood else food),
                 editingFood := none,
                 newFood := emptyNewFoodForm,
                 showAddFoodForm := false }

/-!
Session Lifecycle Manager (contexts/AuthContext.tsx).

A persisted token is observed only through the local decode of its payload
(`JSON.parse(atob(token.split('.')[1]))`), which either throws or yields a
payload whose `exp` claim may be absent.  The persisted user record is
observed only through whether `JSON.parse` succeeds on it.
-/

/-- Locally decodable content of a stored token. -/
inductive TokenPayload where
  | undecodable
  | decoded (exp : Option ℚ)
deriving DecidableEq, Repr

/-- A stored bearer token. -/
structure Token where
  payload : TokenPayload
deriving DecidableEq, Repr

/-- A stored user record: `JSON.parse` either succeeds or throws on it. -/
inductive StoredUser where
  | parseOk
  | parseFails
deriving DecidableEq, Repr

/-- The persistent storage keys the auth provider reads and writes. -/
structure AuthStorage where
  authToken : Option Token
  authUser : Option StoredUser
deriving DecidableEq, Repr

/-- `isTokenExpired`: decode failure counts as expired; a payload without an
`exp` claim compares `undefined < now`, which is false; otherwise compare the
claim with the current time. -/
def isTokenExpired (t : Token) (now : ℚ) : Bool :=
  match t.payload with
  | TokenPayload.undecodable => true
  | TokenPayload.decoded none => false
  | TokenPayload.decoded (some e) => decide (e < now)

/-- `logout`: remove both storage keys (in-memory user and token are cleared
by the caller through the result record). -/
def authLogout (_st : AuthStorage) : AuthStorage :=
  { authToken := none, authUser := none }

/-- Outcome of the startup auth effect: final storage, in-memory token and
user flag, and how many network calls were issued. -/
structure AuthInitResult where
  storage : AuthStorage
  token : Option Token
  userLoaded : Bool
  networkCalls : ℕ
deriving DecidableEq, Repr

/-- The `isAuthenticated` value exposed by the provider (`!!user && !!token`). -/
def AuthInitResult.isAuthenticated (r : AuthInitResult) : Bool :=
  r.userLoaded && r.token.isSome

/-- The startup effect of the auth provider (`initializeAuth`): with both keys
present, an unparsable user record or an expired/undecodable token leads to
logout with no network call; otherwise the state is set optimistically and
one `getUserData` call verifies the token, logging out when the server
rejects it.  With either key absent nothing at all happens. -/
def initAuth (st : AuthStorage) (now : ℚ) (serverAccepts : Bool) : AuthInitResult :=
  match st.authToken, st.authUser with
  | some tok, some u =>
      match u with
      | StoredUser.parseFails =>
          -- `JSON.parse(storedUser)` throws; the catch block calls logout()
          { storage := authLogout st, token := none, userLoaded := false, networkCalls := 0 }
      | StoredUser.parseOk =>
          if isTokenExpired tok now then
            { storage := authLogout st, token := none, userLoaded := false, networkCalls := 0 }
          else if serverAccepts then
            { storage := st, token := some tok, userLoaded := true, networkCalls := 1 }
          else
            { storage := authLogout st, token := none, userLoaded := false, networkCalls := 1 }
  | _, _ =>
      { storage := st, token := none, userLoaded := false, networkCalls := 0 }

/-!
Concrete fixtures used by the closed theorems and witnesses below.
-/

/-- Default goals record. -/
def g0 : Goals :=
  { calories := JSNum.fin 2200, protein := JSNum.fin 165,
    carbs := JSNum.fin 275, fat := JSNum.fin 73 }

/-- A clean logged entry. -/
def entryOne : DailyEntry :=
  { id := 1, foodId := 1, name := ['C', 'h', 'i', 'c', 'k', 'e', 'n'],
    servings := JSNum.fin 1, portionSize := JSNum.fin 100, unit := "g",
    calories := JSNum.fin 165, protein := JSNum.fin 31,
    carbs := JSNum.fin 0, fat := JSNum.fin (18 / 5),
    date := "2024-01-02", mealTime := "08:00" }

/-- A built-in food (chicken breast). -/
def foodChicken : Food :=
  { id := 1, name := ['C', 'h', 'i', 'c', 'k', 'e', 'n'],
    calories := JSNum.fin 165, protein := JSNum.fin 31,
    carbs := JSNum.fin 0, fat := JSNum.fin (18 / 5),
    servingParsed := JSNum.fin 100, unit := some "g", isCustom := false }

/-- An empty remote dataset. -/
def udEmpty : UserData := { customFoods := [], dailyEntries := [], goals := g0 }

/-- An authenticated component state holding exactly `entryOne`. -/
def baseState : AppState :=
  { customFoods := [], dailyEntries := [entryOne], goals := g0,
    isAuthenticated := true, isDeletingEntry := false, isManualSaving := false,
    portionSize := NumInput.value (JSNum.fin 100), selectedDate := "2024-01-02",
    editingFood := none, newFood := emptyNewFoodForm,
    foodValidationErrors := [], portionValidationErrors := [],
    showPortionModal := false, showAddFoodForm := false, selectedFood := none }

/-- The entry that `addFoodEntry baseState foodChicken (some 100) 99 "12:00"`
creates optimistically. -/
def entryNinetyNine : DailyEntry :=
  { id := 99, foodId := 1, name := ['C', 'h', 'i', 'c', 'k', 'e', 'n'],
    servings := JSNum.fin 1, portionSize := JSNum.fin 100, unit := "g",
    calories := JSNum.fin 165, protein := JSNum.fin 31,
    carbs := JSNum.fin 0, fat := JSNum.fin (18 / 5),
    date := "2024-01-02", mealTime := "12:00" }

/-- An entry whose calories are `Infinity` (non-finite but not NaN). -/
def entryInfCalories : DailyEntry :=
  { entryOne with id := 7, calories := JSNum.posInf }

/-- The NaN-calories entry of spec property 4. -/
def entryNaNCalories : DailyEntry :=
  { entryOne with
    id := 8, calories := JSNum.nan,
    protein := JSNum.fin 5, carbs := JSNum.fin 5, fat := JSNum.fin 5 }

/-- The clean 100-calorie entry of spec property 4. -/
def entryHundred : DailyEntry :=
  { entryOne with
    id := 9, calories := JSNum.fin 100,
    protein := JSNum.fin 20, carbs := JSNum.fin 5, fat := JSNum.fin 2 }

/-- A token whose decoded expiry claim is 0 (in the past for any positive
current time). -/
def tokExpired : Token := { payload := TokenPayload.decoded (some 0) }

/-- Storage holding the expired token but no user record. -/
def stTokenOnly : AuthStorage := { authToken := some tokExpired, authUser := none }

/-- Storage holding the expired token together with a parsable user record. -/
def stFull : AuthStorage := { authToken := some tokExpired, authUser := some StoredUser.parseOk }

/-- The input of spec property 2:
`{name:"", calories:"-5", protein:"200", carbs:"0", fat:"0"}`. -/
def foodC6 : FoodData :=
  { name := [], calories := NumInput.value (JSNum.fin (-5))
    protein := NumInput.value (JSNum.fin 200)
    carbs := NumInput.value (JSNum.fin 0), fat := NumInput.value (JSNum.fin 0) }

/-- A food failing the cross-check: calories 100 against 180 calculated. -/
def foodAllFat : FoodData :=
  { name := ['O', 'i', 'l'], calories := NumInput.value (JSNum.fin 100)
    protein := NumInput.value (JSNum.fin 0)
    carbs := NumInput.value (JSNum.fin 0), fat := NumInput.value (JSNum.fin 20) }

/-- A food passing the cross-check: calories 100 against 100 calculated. -/
def foodAllProtein : FoodData :=
  { name := ['W', 'h', 'e', 'y'], calories := NumInput.value (JSNum.fin 100)
    protein := NumInput.value (JSNum.fin 25)
    carbs := NumInput.value (JSNum.fin 0), fat := NumInput.value (JSNum.fin 0) }

/-!
Claim C9: `deleteCustomFood` and `updateCustomFood` touch only the
custom-foods collection.
-/

/-- C9: for every component state, `deleteCustomFood` and `updateCustomFood`
leave `dailyEntries` and `goals` unchanged, so logged entries keep their
snapshotted name and macro values when their source food is deleted or
edited. -/
theorem customFood_mutations_preserve_entries_and_goals (s : AppState) (foodId : ℤ) :
    (deleteCustomFood s foodId).dailyEntries = s.dailyEntries
    ∧ (deleteCustomFood s foodId).goals = s.goals
    ∧ (updateCustomFood s).dailyEntries = s.dailyEntries
    ∧ (updateCustomFood s).goals = s.goals := by
  refine ⟨rfl, rfl, ?_, ?_⟩ <;>
  · unfold updateCustomFood
    cases h : s.editingFood with
    | none => rfl
    | some f => simp only []; split <;> rfl

/-!
Claim C10: `removeFoodEntry` with an id that matches no entry is a no-op.
-/

/-- C10: when no entry carries the requested id, `removeFoodEntry` leaves the
state unchanged apart from ending with `isDeletingEntry = false`, keeps
`dailyEntries` intact, and issues no push and no re-fetch. -/
theorem removeFoodEntry_missing_id_noop (s : AppState) (entryId : ℤ)
    (pushOk fetchOk : Bool) (fetched : UserData)
    (h : ∀ e ∈ s.dailyEntries, e.id ≠ entryId) :
    (removeFoodEntry s entryId pushOk fetchOk fetched).1 = { s with isDeletingEntry := false }
    ∧ (removeFoodEntry s entryId pushOk fetchOk fetched).2.filter Ev.isNetwork = []
    ∧ (removeFoodEntry s entryId pushOk fetchOk fetched).1.dailyEntries = s.dailyEntries := by
  have hf : s.dailyEntries.find? (fun entry => entry.id == entryId) = none := by
    rw [List.find?_eq_none]
    intro x hx
    simpa using h x hx
  unfold removeFoodEntry
  refine ⟨?_, ?_, ?_⟩ <;> simp [hf, Ev.isNetwork]

/-- Witness for C10 at a concrete state: removing id 2 from a list holding
only id 1. -/
theorem removeFoodEntry_missing_id_noop_witness :
    (removeFoodEntry baseState 2 true true udEmpty).1 = { baseState with isDeletingEntry := false }
    ∧ (removeFoodEntry baseState 2 true true udEmpty).2.filter Ev.isNetwork = []
    ∧ (removeFoodEntry baseState 2 true true udEmpty).1.dailyEntries = baseState.dailyEntries :=
  removeFoodEntry_missing_id_noop baseState 2 true true udEmpty (by decide)

/-!
Claim C1: rollback on push failure.  The code cannot roll back: the api layer
resolves every failure as `{ success: false }`, `saveUserDataToBackend`
discards that flag, so the catch/rollback branches of `addFoodEntry` and
`removeFoodEntry` are unreachable and no error reaches the caller.
-/

/-- C1 (code bug evidence): with the push failing (`pushOk = false`) and the
re-fetch failing too, an authenticated `addFoodEntry` keeps the optimistic
entry instead of restoring the snapshot, and an authenticated
`removeFoodEntry` keeps the deletion; neither signals any error. -/
theorem pushFailure_no_rollback_no_error_signal :
    (addFoodEntry baseState foodChicken (some (JSNum.fin 100)) 99 "12:00" false false udEmpty).1.dailyEntries
      = [entryOne, entryNinetyNine]
    ∧ baseState.dailyEntries = [entryOne]
    ∧ ([entryOne, entryNinetyNine] ≠ [entryOne])
    ∧ (addFoodEntry baseState foodChicken (some (JSNum.fin 100)) 99 "12:00" false false udEmpty).2
      = [Ev.push [entryOne, entryNinetyNine], Ev.fetch]
    ∧ (removeFoodEntry baseState 1 false false udEmpty).1.dailyEntries = []
    ∧ (removeFoodEntry baseState 1 false false udEmpty).2 = [Ev.push [], Ev.fetch] := by
  refine ⟨?_, rfl, ?_, ?_, ?_, ?_⟩ <;> with_unfolding_all decide

/-!
Claim C2: the Numeric Integrity Guard.  The spec says corrupted = some field
non-finite; the code tests `isNaN` only, so an entry with an `Infinity`
field is neither counted nor filtered.
-/

/-- The NaN disjunction used by the guard equals the decidable spec-side
predicate `hasNaNMacro`. -/
theorem nanFlag_eq (e : DailyEntry) :
    (jIsNaN e.calories || jIsNaN e.protein || jIsNaN e.carbs || jIsNaN e.fat)
      = decide (hasNaNMacro e) := by
  cases hc : jIsNaN e.calories <;> cases hp : jIsNaN e.protein <;>
    cases hb : jIsNaN e.carbs <;> cases hf : jIsNaN e.fat <;>
    simp [hasNaNMacro, hc, hp, hb, hf]

/-- C2 counterexample: an entry whose calories are `Infinity` is corrupted in
the spec sense (non-finite field) but the guard neither counts it nor removes
it, refuting the claim that the guard classifies exactly the non-finite
entries. -/
theorem guard_misses_infinite_fields :
    specCorruptedNonFinite entryInfCalories = true
    ∧ countCorruptedEntries [entryInfCalories] = 0
    ∧ countCorruptedEntries [entryInfCalories]
        ≠ (List.filter (fun e => specCorruptedNonFinite e) [entryInfCalories]).length
    ∧ cleanupNaNEntries [entryInfCalories]
        ≠ List.filter (fun e => !specCorruptedNonFinite e) [entryInfCalories] := by
  refine ⟨?_, ?_, ?_, ?_⟩ <;> with_unfolding_all decide

/-- C2 (amended): the guard classifies an entry as corrupted exactly when at
least one of its four macro fields is NaN: `countCorruptedEntries` counts
those entries, and `cleanupNaNEntries` removes exactly those, keeping the
remaining entries in order (a sublist of the input). -/
theorem guard_classifies_NaN_entries (entries : List DailyEntry) :
    countCorruptedEntries entries = entries.countP (fun e => decide (hasNaNMacro e))
    ∧ cleanupNaNEntries entries = entries.filter (fun e => decide (¬ hasNaNMacro e))
    ∧ (cleanupNaNEntries entries).Sublist entries
    ∧ (∀ e ∈ entries, (e ∈ cleanupNaNEntries entries ↔ ¬ hasNaNMacro e)) := by
  have hpred : ∀ e : DailyEntry,
      (if jIsNaN e.calories || jIsNaN e.protein || jIsNaN e.carbs || jIsNaN e.fat
       then false else true) = decide (¬ hasNaNMacro e) := by
    intro e
    rw [nanFlag_eq e]
    by_cases h : hasNaNMacro e <;> simp [h]
  have hclean : cleanupNaNEntries entries = entries.filter (fun e => decide (¬ hasNaNMacro e)) := by
    unfold cleanupNaNEntries
    exact List.filter_congr (fun e _ => hpred e)
  refine ⟨?_, hclean, ?_, ?_⟩
  · unfold countCorruptedEntries
    rw [List.countP_eq_length_filter]
    exact congrArg List.length (List.filter_congr (fun e _ => nanFlag_eq e))
  · unfold cleanupNaNEntries
    exact List.filter_sublist entries
  · intro e he
    rw [hclean]
    simp [List.mem_filter, he]

/-- Witness for C2 (amended) on a concrete two-entry list holding one clean
and one NaN entry. -/
theorem guard_classifies_NaN_entries_witness :
    countCorruptedEntries [entryHundred, entryNaNCalories]
      = List.countP (fun e => decide (hasNaNMacro e)) [entryHundred, entryNaNCalories]
    ∧ cleanupNaNEntries [entryHundred, entryNaNCalories]
      = List.filter (fun e => decide (¬ hasNaNMacro e)) [entryHundred, entryNaNCalories] :=
  ⟨(guard_classifies_NaN_entries [entryHundred, entryNaNCalories]).1,
   (guard_classifies_NaN_entries [entryHundred, entryNaNCalories]).2.1⟩

/-!
Claim C3: the daily-totals aggregation.  The code zeroes NaN fields only, so
an `Infinity` field propagates into the totals instead of being treated as
zero as the spec-side `safeAggregate` (non-finite to zero) requires.
-/

/-- The four-field reduction of `dailyTotals` computed as four independent
per-field folds, for any starting accumulator. -/
theorem totalsFold_eq (l : List DailyEntry) :
    ∀ t : Totals,
      l.foldl (fun totals entry =>
        let safeCalories := if jIsNaN entry.calories then JSNum.fin 0 else entry.calories
        let safeProtein := if jIsNaN entry.protein then JSNum.fin 0 else entry.protein
        let safeCarbs := if jIsNaN entry.carbs then JSNum.fin 0 else entry.carbs
        let safeFat := if jIsNaN entry.fat then JSNum.fin 0 else entry.fat
        { calories := jadd totals.calories safeCalories
          protein := jadd totals.protein safeProtein
          carbs := jadd totals.carbs safeCarbs
          fat := jadd totals.fat safeFat }) t
      = { calories := l.foldl (fun a e => jadd a (zeroIfNaN e.calories)) t.calories
          protein := l.foldl (fun a e => jadd a (zeroIfNaN e.protein)) t.protein
          carbs := l.foldl (fun a e => jadd a (zeroIfNaN e.carbs)) t.carbs
          fat := l.foldl (fun a e => jadd a (zeroIfNaN e.fat)) t.fat } := by
  induction l with
  | nil => intro t; rfl
  | cons x xs ih =>
      intro t
      simp only [List.foldl_cons]
      rw [ih]
      rfl

/-- C3 counterexample: with a single same-date entry whose calories are
`Infinity`, the daily-totals computation yields `Infinity` calories while the
spec-side `safeAggregate` (corrupted = non-finite field treated as zero)
yields 0, refuting the claim as stated. -/
theorem dailyTotals_keeps_infinite_fields :
    (dailyTotals [entryInfCalories] "2024-01-02").calories = JSNum.posInf
    ∧ (safeAggregateSpec [entryInfCalories]).calories = JSNum.fin 0
    ∧ dailyTotals [entryInfCalories] "2024-01-02" ≠ safeAggregateSpec [entryInfCalories] := by
  refine ⟨?_, ?_, ?_⟩ <;> with_unfolding_all decide

/-- C3 (amended): the daily-totals computation sums each of the four macro
fields across the selected day's entries, treating any single NaN field as
zero for that field only and never dropping a whole entry; on the spec's
example pair (a clean 100-calorie entry plus a NaN-calories entry) it yields
100 calories while `countCorruptedEntries` reports 1. -/
theorem dailyTotals_sums_with_NaN_as_zero :
    (∀ (entries : List DailyEntry) (d : String),
        dailyTotals entries d = safeAggregateNaN (entries.filter (fun e => e.date == d)))
    ∧ (dailyTotals [entryHundred, entryNaNCalories] "2024-01-02").calories = JSNum.fin 100
    ∧ countCorruptedEntries [entryHundred, entryNaNCalories] = 1 := by
  refine ⟨?_, ?_, ?_⟩
  · intro entries d
    unfold dailyTotals safeAggregateNaN jsum
    rw [totalsFold_eq]
    simp only [List.foldl_map]
  · with_unfolding_all decide
  · with_unfolding_all decide

/-!
Claim C7: `validatePortionSize` accepts exactly the finite values in
(0, 10000].
-/

/-- C7: a portion input is valid exactly when it parses to a finite number
strictly greater than 0 and at most 10000; in particular 10000 is valid and
10001, 0 and -1 are invalid. -/
theorem portionSize_valid_iff :
    (∀ x : NumInput, (validatePortionSize x).isValid = true
        ↔ ∃ q : ℚ, parseNum x = JSNum.fin q ∧ 0 < q ∧ q ≤ 10000)
    ∧ (validatePortionSize (NumInput.value (JSNum.fin 10000))).isValid = true
    ∧ (validatePortionSize (NumInput.value (JSNum.fin 10001))).isValid = false
    ∧ (validatePortionSize (NumInput.value (JSNum.fin 0))).isValid = false
    ∧ (validatePortionSize (NumInput.value (JSNum.fin (-1)))).isValid = false := by
  have key : ∀ x : NumInput, (validatePortionSize x).isValid = true
      ↔ ∃ q : ℚ, parseNum x = JSNum.fin q ∧ 0 < q ∧ q ≤ 10000 := by
    intro x
    cases x with
    | blank => simp [validatePortionSize, parseNum, numInputBlank]
    | value v =>
        cases v with
        | nan => simp [validatePortionSize, parseNum, numInputBlank, jIsNaN]
        | posInf => simp [validatePortionSize, parseNum, numInputBlank, jIsNaN, jle, jlt]
        | negInf => simp [validatePortionSize, parseNum, numInputBlank, jIsNaN, jle, jlt]
        | fin q =>
            constructor
            · intro h
              refine ⟨q, rfl, ?_, ?_⟩
              · by_contra hq
                push_neg at hq
                have hle : jle (JSNum.fin q) (JSNum.fin 0) = true := by
                  simp [jle, jlt, not_lt.mpr hq]
                simp [validatePortionSize, parseNum, numInputBlank, jIsNaN, hle] at h
              · by_contra hq
                push_neg at hq
                have hle : jle (JSNum.fin q) (JSNum.fin 0) = false := by
                  have : (0 : ℚ) < q := lt_trans (by norm_num) hq
                  simp [jle, jlt, this]
                have hlt : jlt (JSNum.fin 10000) (JSNum.fin q) = true := by
                  simp [jlt, hq]
                simp [validatePortionSize, parseNum, numInputBlank, jIsNaN, hle, hlt] at h
            · rintro ⟨q', heq, h1, h2⟩
              have hq : q = q' := by
                simpa [parseNum] using heq
              subst hq
              have hle : jle (JSNum.fin q) (JSNum.fin 0) = false := by
                simp [jle, jlt, h1]
              have hlt : jlt (JSNum.fin 10000) (JSNum.fin q) = false := by
                simp [jlt, not_lt.mpr h2]
              simp [validatePortionSize, parseNum, numInputBlank, jIsNaN, hle, hlt]
  refine ⟨key, ?_, ?_, ?_, ?_⟩
  · exact (key _).mpr ⟨10000, rfl, by norm_num, by norm_num⟩
  · rw [Bool.eq_false_iff]
    intro h
    obtain ⟨q, heq, h1, h2⟩ := (key _).mp h
    have hq : (10001 : ℚ) = q := by simpa [parseNum] using heq
    rw [← hq] at h2
    norm_num at h2
  · rw [Bool.eq_false_iff]
    intro h
    obtain ⟨q, heq, h1, h2⟩ := (key _).mp h
    have hq : (0 : ℚ) = q := by simpa [parseNum] using heq
    rw [← hq] at h1
    norm_num at h1
  · rw [Bool.eq_false_iff]
    intro h
    obtain ⟨q, heq, h1, h2⟩ := (key _).mp h
    have hq : (-1 : ℚ) = q := by simpa [parseNum] using heq
    rw [← hq] at h1
    norm_num at h1

/-!
Claim C6: `validateFood` accumulates all applicable errors.
-/

/-- C6: on the input with empty name, calories -5, protein 200, carbs 0 and
fat 0, `validateFood` returns invalid with exactly the three distinct error
strings for the missing name, the negative calories and the protein above
100 (it accumulates all of them instead of stopping at the first; as a total
pure function it neither throws nor mutates its input). -/
theorem validateFood_accumulates_all_errors :
    validateFood foodC6
      = { isValid := false
          errors := ["Food name is required", "Calories cannot be negative",
                     "Protein per 100g cannot exceed 100g"] }
    ∧ (["Food name is required", "Calories cannot be negative",
        "Protein per 100g cannot exceed 100g"] : List String).Nodup
    ∧ 3 ≤ (validateFood foodC6).errors.length := by
  refine ⟨?_, ?_, ?_⟩ <;> with_unfolding_all decide

/-!
Claim C5: the calorie cross-check of `validateFood`.
-/

/-- Every message produced by the name block is one of its three fixed
strings. -/
theorem mem_nameErrors (m : String) (n : List Char) (h : m ∈ nameErrors n) :
    m ∈ ["Food name is required", "Food name must be at least 2 characters",
         "Food name must be less than 100 characters"] := by
  unfold nameErrors at h
  repeat' split at h
  all_goals simp_all

/-- Every message produced by a macro-field block is one of its four
parameter strings. -/
theorem mem_numFieldErrors (m : String) (x : NumInput) (reqMsg nanMsg negMsg maxMsg : String)
    (maxVal : ℚ) (h : m ∈ numFieldErrors x reqMsg nanMsg negMsg maxMsg maxVal) :
    m = reqMsg ∨ m = nanMsg ∨ m = negMsg ∨ m = maxMsg := by
  unfold numFieldErrors at h
  by_cases b1 : numInputBlank x = true
  · simp [b1] at h
    simp [h]
  · by_cases b2 : jIsNaN (parseNum x) = true
    · simp [b1, b2] at h
      simp [h]
    · by_cases b3 : jlt (parseNum x) (JSNum.fin 0) = true
      · simp [b1, b2, b3] at h
        simp [h]
      · by_cases b4 : jlt (JSNum.fin maxVal) (parseNum x) = true
        · simp [b1, b2, b3, b4] at h
          simp [h]
        · simp [b1, b2, b3, b4] at h

/-- C5: with all four fields parsing to finite numbers, `validateFood`
reports the cross-check error exactly when calories exceed 50 and the
distance between calories and `protein*4 + carbs*4 + fat*9` exceeds 20% of
the calories. -/
theorem crossCheck_iff (f : FoodData) (qc qp qb qf : ℚ)
    (hc : f.calories = NumInput.value (JSNum.fin qc))
    (hp : f.protein = NumInput.value (JSNum.fin qp))
    (hb : f.carbs = NumInput.value (JSNum.fin qb))
    (hf : f.fat = NumInput.value (JSNum.fin qf)) :
    crossCheckMsg ∈ (validateFood f).errors
      ↔ (50 < qc ∧ qc * (1 / 5) < |qc - (qp * 4 + qb * 4 + qf * 9)|) := by
  have hnotname : crossCheckMsg ∉ nameErrors f.name := by
    intro hm
    have := mem_nameErrors _ _ hm
    revert this
    decide
  have hnotfield : ∀ (x : NumInput) (r n g mx : String) (mv : ℚ),
      (r ≠ crossCheckMsg) → (n ≠ crossCheckMsg) → (g ≠ crossCheckMsg) → (mx ≠ crossCheckMsg) →
      crossCheckMsg ∉ numFieldErrors x r n g mx mv := by
    intro x r n g mx mv h1 h2 h3 h4 hm
    rcases mem_numFieldErrors _ _ _ _ _ _ _ hm with h | h | h | h
    · exact h1 h.symm
    · exact h2 h.symm
    · exact h3 h.symm
    · exact h4 h.symm
  have hcross : crossErrors f
      = (if jlt (jmul (JSNum.fin qc) (JSNum.fin (1 / 5)))
              (jabs (jsub (JSNum.fin qc)
                (jadd (jadd (jmul (JSNum.fin qp) (JSNum.fin 4)) (jmul (JSNum.fin qb) (JSNum.fin 4)))
                  (jmul (JSNum.fin qf) (JSNum.fin 9)))))
            && jlt (JSNum.fin 50) (JSNum.fin qc)
         then [crossCheckMsg] else []) := by
    unfold crossErrors
    rw [hc, hp, hb, hf]
    simp [parseNum, jIsNaN]
  have harith : (jlt (jmul (JSNum.fin qc) (JSNum.fin (1 / 5)))
        (jabs (jsub (JSNum.fin qc)
          (jadd (jadd (jmul (JSNum.fin qp) (JSNum.fin 4)) (jmul (JSNum.fin qb) (JSNum.fin 4)))
            (jmul (JSNum.fin qf) (JSNum.fin 9)))))
      && jlt (JSNum.fin 50) (JSNum.fin qc)) = true
      ↔ (50 < qc ∧ qc * (1 / 5) < |qc - (qp * 4 + qb * 4 + qf * 9)|) := by
    simp only [jmul, jadd, jsub, jneg, jabs, jlt, Bool.and_eq_true, decide_eq_true_eq]
    rw [← sub_eq_add_neg]
    exact and_comm
  have hmem : crossCheckMsg ∈ crossErrors f
      ↔ (50 < qc ∧ qc * (1 / 5) < |qc - (qp * 4 + qb * 4 + qf * 9)|) := by
    rw [hcross]
    by_cases hcond : (50 < qc ∧ qc * (1 / 5) < |qc - (qp * 4 + qb * 4 + qf * 9)|)
    · rw [if_pos (harith.mpr hcond)]
      exact iff_of_true (List.mem_singleton_self _) hcond
    · rw [if_neg (fun hc => hcond (harith.mp hc))]
      exact iff_of_false (List.not_mem_nil _) hcond
  constructor
  · intro hm
    unfold validateFood at hm
    simp only [List.mem_append] at hm
    rcases hm with ((((hm | hm) | hm) | hm) | hm) | hm
    · exact absurd hm hnotname
    · exact absurd hm (hnotfield _ _ _ _ _ _ (by decide) (by decide) (by decide) (by decide))
    · exact absurd hm (hnotfield _ _ _ _ _ _ (by decide) (by decide) (by decide) (by decide))
    · exact absurd hm (hnotfield _ _ _ _ _ _ (by decide) (by decide) (by decide) (by decide))
    · exact absurd hm (hnotfield _ _ _ _ _ _ (by decide) (by decide) (by decide) (by decide))
    · exact hmem.mp hm
  · intro hcond
    unfold validateFood
    simp only [List.mem_append]
    exact Or.inr (hmem.mpr hcond)

/-- Witness for C5 at the spec's two example foods: calories 100 with 20g fat
(180 calculated) triggers the cross-check error; calories 100 with 25g
protein (100 calculated) does not. -/
theorem crossCheck_iff_witness :
    crossCheckMsg ∈ (validateFood foodAllFat).errors
    ∧ crossCheckMsg ∉ (validateFood foodAllProtein).errors := by
  constructor
  · exact (crossCheck_iff foodAllFat 100 0 0 20 rfl rfl rfl rfl).mpr (by norm_num)
  · intro h
    have h2 := (crossCheck_iff foodAllProtein 100 25 0 0 rfl rfl rfl rfl).mp h
    norm_num at h2

/-!
Claim C4: idempotence of `sanitizeString`.  The escape sequences contain
`&`, which a second pass re-escapes, so idempotence fails on any input
containing a special character; it holds on inputs containing none.
-/

/-- Dropping with the same predicate twice drops nothing new. -/
theorem dropWhile_idem (p : Char → Bool) : ∀ l : List Char,
    List.dropWhile p (List.dropWhile p l) = List.dropWhile p l
  | [] => rfl
  | a :: l => by
      by_cases h : p a
      · rw [List.dropWhile_cons_of_pos h]
        exact dropWhile_idem p l
      · rw [List.dropWhile_cons_of_neg h, List.dropWhile_cons_of_neg h]

/-- A left factor of a `dropWhile` fixed point is itself a fixed point. -/
theorem dropWhile_fix_of_append (p : Char → Bool) (l r : List Char)
    (h : List.dropWhile p (l ++ r) = l ++ r) : List.dropWhile p l = l := by
  cases l with
  | nil => rfl
  | cons a t =>
      by_cases hp : p a
      · exfalso
        rw [List.cons_append, List.dropWhile_cons_of_pos hp] at h
        have hlen := congrArg List.length h
        have hle : (List.dropWhile p (t ++ r)).length ≤ (t ++ r).length :=
          (List.dropWhile_sublist _).length_le
        simp only [List.length_cons] at hlen
        omega
      · rw [List.dropWhile_cons_of_neg hp]

/-- Trimming is idempotent. -/
theorem trimChars_idem (s : List Char) : trimChars (trimChars s) = trimChars s := by
  have hu : List.dropWhile isWS (List.dropWhile isWS s) = List.dropWhile isWS s :=
    dropWhile_idem isWS s
  have hdecomp : List.dropWhile isWS s
      = (List.dropWhile isWS (List.dropWhile isWS s).reverse).reverse
        ++ (List.takeWhile isWS (List.dropWhile isWS s).reverse).reverse := by
    conv_lhs =>
      rw [← List.reverse_reverse (List.dropWhile isWS s),
          ← List.takeWhile_append_dropWhile (p := isWS)
            (l := (List.dropWhile isWS s).reverse)]
    rw [List.reverse_append]
  have hv : List.dropWhile isWS (List.dropWhile isWS (List.dropWhile isWS s).reverse).reverse
      = (List.dropWhile isWS (List.dropWhile isWS s).reverse).reverse := by
    apply dropWhile_fix_of_append isWS _ ((List.takeWhile isWS (List.dropWhile isWS s).reverse).reverse)
    rw [← hdecomp]
    exact hu
  show trimChars (trimChars s) = trimChars s
  unfold trimChars
  rw [hv, List.reverse_reverse, dropWhile_idem]

/-- Membership survives `dropWhile`. -/
theorem mem_of_mem_dropWhile (p : Char → Bool) (l : List Char) (c : Char)
    (h : c ∈ List.dropWhile p l) : c ∈ l := by
  have hd := List.takeWhile_append_dropWhile (p := p) (l := l)
  rw [← hd]
  exact List.mem_append_right _ h

/-- Every character of the trimmed string occurs in the original string. -/
theorem mem_of_mem_trimChars (s : List Char) (c : Char) (h : c ∈ trimChars s) : c ∈ s := by
  unfold trimChars at h
  rw [List.mem_reverse] at h
  have h1 := mem_of_mem_dropWhile _ _ _ h
  rw [List.mem_reverse] at h1
  exact mem_of_mem_dropWhile _ _ _ h1

/-- `escapeChar` keeps a non-special character unchanged. -/
theorem escapeChar_of_not_special (c : Char) (h : isSpecialChar c = false) :
    escapeChar c = [c] := by
  unfold isSpecialChar at h
  simp only [Bool.or_eq_false_iff, decide_eq_false_iff_not] at h
  obtain ⟨⟨⟨⟨h1, h2⟩, h3⟩, h4⟩, h5⟩ := h
  unfold escapeChar
  rw [if_neg h1, if_neg h2, if_neg h3, if_neg h4, if_neg h5]

/-- Escaping a string of non-special characters is the identity. -/
theorem flatMap_escape_id : ∀ l : List Char, (∀ c ∈ l, isSpecialChar c = false) →
    l.flatMap escapeChar = l
  | [], _ => rfl
  | a :: l, h => by
      rw [List.flatMap_cons, escapeChar_of_not_special a (h a (List.mem_cons_self a l)),
          flatMap_escape_id l (fun c hc => h c (List.mem_cons_of_mem a hc))]
      rfl

/-- C4 counterexample: sanitizing `"<"` yields `"&lt;"`, and sanitizing that
again yields `"&amp;lt;"`, so `sanitizeString` is not idempotent as claimed:
its output can contain a raw `&` introduced by the escapes. -/
theorem sanitize_not_idempotent :
    sanitizeString (sanitizeString ['<']) ≠ sanitizeString ['<']
    ∧ sanitizeString ['<'] = ['&', 'l', 't', ';']
    ∧ sanitizeString (sanitizeString ['<']) = ['&', 'a', 'm', 'p', ';', 'l', 't', ';'] := by
  refine ⟨?_, ?_, ?_⟩ <;> decide

/-- C4 (amended): on strings containing none of the five escaped characters
`< > " ' &`, `sanitizeString` is idempotent (it reduces to trimming, and
trimming is idempotent); on other strings a second pass re-escapes the `&`
of the escape sequences. -/
theorem sanitize_idempotent_on_clean (s : List Char)
    (h : ∀ c ∈ s, isSpecialChar c = false) :
    sanitizeString (sanitizeString s) = sanitizeString s := by
  have htrim : ∀ c ∈ trimChars s, isSpecialChar c = false :=
    fun c hc => h c (mem_of_mem_trimChars s c hc)
  have h1 : sanitizeString s = trimChars s := by
    unfold sanitizeString
    exact flatMap_escape_id _ htrim
  rw [h1]
  unfold sanitizeString
  rw [trimChars_idem]
  exact flatMap_escape_id _ htrim

/-- Witness for C4 (amended) on the clean string `"abc"`. -/
theorem sanitize_idempotent_on_clean_witness :
    sanitizeString (sanitizeString ['a', 'b', 'c']) = sanitizeString ['a', 'b', 'c'] :=
  sanitize_idempotent_on_clean ['a', 'b', 'c'] (by decide)

/-!
Claim C8: startup handling of an expired (or undecodable) persisted token.
The purge only happens when a stored user record accompanies the token: with
the token alone in storage the startup effect does nothing, leaving the
stale token persisted (though still with no network call and an
unauthenticated state).
-/

/-- C8 counterexample: an expired token persisted without a user record is
not purged from storage by the startup effect, refuting the claim that every
expired persisted token is purged (no network call is made and the state is
unauthenticated, but the token stays). -/
theorem expired_token_without_user_not_purged :
    isTokenExpired tokExpired 100 = true
    ∧ (initAuth stTokenOnly 100 true).storage.authToken = some tokExpired
    ∧ (initAuth stTokenOnly 100 true).networkCalls = 0
    ∧ (initAuth stTokenOnly 100 true).isAuthenticated = false := by
  refine ⟨?_, ?_, ?_, ?_⟩ <;> with_unfolding_all decide

/-- C8 (amended): when a stored user record accompanies the token, a token
whose locally decoded expiry is in the past (or that cannot be decoded)
leads directly to the unauthenticated state with both storage keys purged
and no network call; when the user record is absent, still no network call
is made and the state stays unauthenticated, but storage is left untouched
(the stale token is not purged). -/
theorem expired_token_startup :
    (∀ (tok : Token) (u : StoredUser) (st : AuthStorage) (now : ℚ) (sv : Bool),
        st.authToken = some tok → st.authUser = some u → isTokenExpired tok now = true →
        (initAuth st now sv).storage.authToken = none
        ∧ (initAuth st now sv).storage.authUser = none
        ∧ (initAuth st now sv).isAuthenticated = false
        ∧ (initAuth st now sv).networkCalls = 0)
    ∧ (∀ (tok : Token) (st : AuthStorage) (now : ℚ) (sv : Bool),
        st.authToken = some tok → st.authUser = none →
        (initAuth st now sv).networkCalls = 0
        ∧ (initAuth st now sv).isAuthenticated = false
        ∧ (initAuth st now sv).storage = st) := by
  constructor
  · intro tok u st now sv ht hu hx
    obtain ⟨st1, st2⟩ := st
    cases ht
    cases hu
    cases u with
    | parseFails =>
        simp [initAuth, authLogout, AuthInitResult.isAuthenticated]
    | parseOk =>
        simp [initAuth, hx, authLogout, AuthInitResult.isAuthenticated]
  · intro tok st now sv ht hu
    obtain ⟨st1, st2⟩ := st
    cases ht
    cases hu
    simp [initAuth, AuthInitResult.isAuthenticated]

/-- Witness for C8 (amended) at the concrete expired token, with and without
a stored user record. -/
theorem expired_token_startup_witness :
    ((initAuth stFull 100 true).storage.authToken = none
      ∧ (initAuth stFull 100 true).storage.authUser = none
      ∧ (initAuth stFull 100 true).isAuthenticated = false
      ∧ (initAuth stFull 100 true).networkCalls = 0)
    ∧ ((initAuth stTokenOnly 100 true).networkCalls = 0
      ∧ (initAuth stTokenOnly 100 true).isAuthenticated = false
      ∧ (initAuth stTokenOnly 100 true).storage = stTokenOnly) :=
  ⟨expired_token_startup.1 tokExpired StoredUser.parseOk stFull 100 true rfl rfl
      (by with_unfolding_all decide),
   expired_token_startup.2 tokExpired stTokenOnly 100 true rfl rfl⟩

end NutritionTracker
